import Mathlib

/-!
Shallow embedding of `multi_app.py`, an Asana budget-status synchronizer.

Pure computational core first (cost extraction, metric aggregation, derived
rates, summary rendering), then a state-passing model of the gateway-facing
functions (`find_status_task`, `create_status_task`, `update_project_metrics`,
`determine_projects_to_update`, `handle_webhook`).  Remote-API calls may fail
transiently; this is modelled by a per-call failure schedule consumed one
entry per gateway call (an empty schedule means every call succeeds).
Numeric custom-field values are rationals (the source uses Python numbers;
no claim depends on binary floating-point artefacts).
-/

/-- Sentinel name of the per-project status record (source line 22). -/
def STATUS_TASK_NAME : String := "Project Status"

/-- Display name of the estimated-cost custom field (source line 23). -/
def ESTIMATED_COST_FIELD : String := "Budget"

/-- Display name of the actual-cost custom field (source line 24). -/
def ACTUAL_COST_FIELD : String := "Actual Cost"

/-- Reference project id used to discover the workspace (source line 19). -/
def TEMPLATE_PROJECT_ID : String := "1209353707682767"

/-- One custom-field entry on a task detail: field gid plus optional numeric
value (`number_value` may be absent). -/
structure CustomFieldValue where
  gid : String
  number_value : Option ℚ
deriving DecidableEq

/-- A custom-field setting attached to a project: the field's display name
and gid (`setting['custom_field']['name' / 'gid']`). -/
structure FieldSetting where
  name : String
  gid : String
deriving DecidableEq

/-- A task record.  The source fetches a list view (gid, name) and then the
full detail (custom fields) of the same task; in this sequential model the
two views coincide, so one record carries both. -/
structure TaskRec where
  gid : String
  name : String
  notes : String
  projects : List String
  custom_fields : List CustomFieldValue
deriving DecidableEq

/-- An over-budget entry, `{'name', 'estimated', 'actual', 'difference'}`
(source lines 162-167). -/
structure OverBudgetItem where
  name : String
  estimated : ℚ
  actual : ℚ
  difference : ℚ
deriving DecidableEq

/-- The running accumulators of `update_project_metrics`
(source lines 115-119). -/
structure Metrics where
  total_estimated : ℚ
  total_actual : ℚ
  completed_tasks : ℕ
  total_tasks : ℕ
  overbudget_tasks : List OverBudgetItem
deriving DecidableEq

/-- Initial accumulators (source lines 115-119). -/
def initMetrics : Metrics :=
  { total_estimated := 0, total_actual := 0, completed_tasks := 0,
    total_tasks := 0, overbudget_tasks := [] }

/-- The custom-field extraction loop (source lines 142-150): walk the task's
custom fields; a field whose gid matches the estimated (resp. actual) gid and
whose `number_value` is present overwrites the running value, which starts at
0 (absent value is treated as 0).  The `elif` makes the actual branch fire
only when the estimated branch did not. -/
def extractStep (estGid actGid : String) (ea : ℚ × ℚ) (f : CustomFieldValue) : ℚ × ℚ :=
  if f.gid = estGid ∧ f.number_value.isSome then (f.number_value.getD 0, ea.2)
  else if f.gid = actGid ∧ f.number_value.isSome then (ea.1, f.number_value.getD 0)
  else ea

/-- The whole extraction fold, starting from `(0, 0)`. -/
def extractCosts (estGid actGid : String) (fields : List CustomFieldValue) : ℚ × ℚ :=
  fields.foldl (extractStep estGid actGid) (0, 0)

/-- The per-task accumulation step (source lines 139-167): count the task,
add its estimated cost unconditionally; only when the actual cost is > 0 add
it to the actual total, count the task as completed, and, if moreover actual
exceeds estimated, append an over-budget entry with the difference. -/
def processTask (estGid actGid : String) (m : Metrics) (t : TaskRec) : Metrics :=
  let ec := (extractCosts estGid actGid t.custom_fields).1
  let ac := (extractCosts estGid actGid t.custom_fields).2
  { total_estimated := m.total_estimated + ec
    total_actual := if 0 < ac then m.total_actual + ac else m.total_actual
    completed_tasks := if 0 < ac then m.completed_tasks + 1 else m.completed_tasks
    total_tasks := m.total_tasks + 1
    overbudget_tasks := m.overbudget_tasks ++
      (if 0 < ac ∧ ec < ac then [⟨t.name, ec, ac, ac - ec⟩] else []) }

/-- One iteration of the task loop (source lines 129-134): a task whose gid
equals the status task's gid is skipped, any other task is accumulated. -/
def aggStep (estGid actGid statusGid : String) (m : Metrics) (t : TaskRec) : Metrics :=
  if t.gid = statusGid then m else processTask estGid actGid m t

/-- The whole task fold, starting from the zeroed accumulators. -/
def aggregate (estGid actGid statusGid : String) (tasks : List TaskRec) : Metrics :=
  tasks.foldl (aggStep estGid actGid statusGid) initMetrics

/-- `percent_complete` (source line 170): completed / total * 100, guarded to
0 when there are no tasks. -/
def percent_complete (m : Metrics) : ℚ :=
  if 0 < m.total_tasks then (m.completed_tasks : ℚ) / (m.total_tasks : ℚ) * 100 else 0

/-- `budget_progress` (source line 171): actual / estimated * 100, guarded to
0 when the estimated total is not positive. -/
def budget_progress (m : Metrics) : ℚ :=
  if 0 < m.total_estimated then m.total_actual / m.total_estimated * 100 else 0

/-- Round a rational to the nearest integer, halves up: `⌊q + 1/2⌋`,
computed as floor((2 num + den) / (2 den)).  (Python's float formatting
rounds halves to even; the exact tie-break is irrelevant to every claim,
which only need rendering to be a deterministic function.) -/
def ratRound (q : ℚ) : ℤ :=
  (2 * q.num + (q.den : ℤ)).fdiv (2 * (q.den : ℤ))

/-- Left-pad a string with zeros to the given length. -/
def padZeros (len : ℕ) (s : String) : String :=
  String.mk (List.replicate (len - s.length) '0') ++ s

/-- Fixed-point decimal formatting, modelling Python's `:.Nf`. -/
def formatFixed (prec : ℕ) (q : ℚ) : String :=
  let scaled : ℤ := ratRound (q * (10 : ℚ) ^ prec)
  let sign : String := if scaled < 0 then "-" else ""
  let n : ℕ := scaled.natAbs
  let ip : ℕ := n / 10 ^ prec
  let fp : ℕ := n % 10 ^ prec
  if prec = 0 then sign ++ toString ip
  else sign ++ toString ip ++ "." ++ padZeros prec (toString fp)

/-- One rendered over-budget line (source line 196). -/
def renderOverbudgetLine (item : OverBudgetItem) : String :=
  "- ❗ " ++ item.name ++ ": Estimated $" ++ formatFixed 2 item.estimated ++
  ", Actual $" ++ formatFixed 2 item.actual ++ " ($" ++
  formatFixed 2 item.difference ++ " over budget)\n"

/-- The summary text up to (and excluding) the trailing timestamp line
(source lines 177-199): header, totals block, progress block, and the
over-budget section only when the list is non-empty. -/
def renderBody (project_name : String) (m : Metrics) : String :=
  let base :=
    "# 🏗️ " ++ project_name ++ " Budget Summary\n\n" ++
    "## 💰 Overall Budget\n" ++
    "- 💵 Total Estimated Budget: $" ++ formatFixed 2 m.total_estimated ++ "\n" ++
    "- 💸 Total Actual Cost Incurred: $" ++ formatFixed 2 m.total_actual ++ "\n" ++
    "- 🎯 Remaining Budget: $" ++ formatFixed 2 (m.total_estimated - m.total_actual) ++ "\n" ++
    "- 📊 Budget Utilization: " ++ formatFixed 1 (budget_progress m) ++ "%\n\n" ++
    "## 📋 Progress\n" ++
    "- 📝 Total Tasks: " ++ toString m.total_tasks ++ "\n" ++
    "- ✅ Completed Tasks (with actual costs): " ++ toString m.completed_tasks ++ "\n" ++
    "- 🚧 Project Completion: " ++ formatFixed 1 (percent_complete m) ++ "%\n\n"
  if m.overbudget_tasks = [] then base
  else
    base ++ "## ⚠️ Overbudget Items\n" ++
    String.join (m.overbudget_tasks.map renderOverbudgetLine) ++
    "\n⚠️ Total Amount Over Budget: $" ++
    formatFixed 2 ((m.overbudget_tasks.map OverBudgetItem.difference).sum) ++ "\n"

/-- The trailing last-updated line (source line 202). -/
def timestampSuffix (current_time : String) : String :=
  "\n\n🕒 Last Updated: " ++ current_time

/-- Full summary rendering (source lines 177-202): body plus timestamp. -/
def renderSummary (project_name : String) (m : Metrics) (current_time : String) : String :=
  renderBody project_name m ++ timestampSuffix current_time

/-! ## The remote world and gateway calls -/

/-- A remote project: gid, workspace gid, optional display name, and its
custom-field settings. -/
structure ProjectInfo where
  gid : String
  workspace_gid : String
  name : Option String
  field_settings : List FieldSetting
deriving DecidableEq

/-- The remote store plus a transient-failure schedule.  Each gateway call
consumes one schedule entry; `true` means the call raises a transport error.
An exhausted (empty) schedule means every further call succeeds. -/
structure World where
  projects : List ProjectInfo
  tasks : List TaskRec
  failSchedule : List Bool
  nextGid : ℕ
deriving DecidableEq

/-- Consume one failure-schedule entry; returns whether this gateway call
raises, and the world with the entry consumed. -/
def gwCall (w : World) : Bool × World :=
  match w.failSchedule with
  | [] => (false, w)
  | b :: rest => (b, { w with failSchedule := rest })

/-- `client.projects.find_by_id`: look a project up by gid. -/
def findProject (w : World) (pid : String) : Option ProjectInfo :=
  w.projects.find? (fun p => p.gid = pid)

/-- `client.tasks.find_by_id`: look a task up by gid. -/
def findTask (w : World) (gid : String) : Option TaskRec :=
  w.tasks.find? (fun t => t.gid = gid)

/-- `client.tasks.find_by_project`: the tasks attached to a project, in
store order. -/
def tasksInProject (w : World) (pid : String) : List TaskRec :=
  w.tasks.filter (fun t => pid ∈ t.projects)

/-- `get_project_workspace` (source lines 29-36): fetch the project and
return its workspace gid; any transport error (or unknown project) is caught
and surfaces as `none`. -/
def get_project_workspace (w : World) (pid : String) : Option String × World :=
  let c := gwCall w
  if c.1 then (none, c.2)
  else
    match findProject c.2 pid with
    | none => (none, c.2)
    | some p => (some p.workspace_gid, c.2)

/-- `get_all_projects_in_workspace` (source lines 38-45): list the projects
of a workspace; a transport error is caught and yields `[]`. -/
def get_all_projects_in_workspace (w : World) (ws : String) : List ProjectInfo × World :=
  let c := gwCall w
  if c.1 then ([], c.2)
  else (c.2.projects.filter (fun p => p.workspace_gid = ws), c.2)

/-- The pure matching loop of `get_custom_fields` (source lines 53-63): walk
the settings; a setting named like the estimated (resp. actual) field
overwrites that gid (the `elif` makes the branches exclusive). -/
def get_custom_fields_pure (settings : List FieldSetting) : Option String × Option String :=
  settings.foldl
    (fun acc s =>
      if s.name = ESTIMATED_COST_FIELD then (some s.gid, acc.2)
      else if s.name = ACTUAL_COST_FIELD then (acc.1, some s.gid)
      else acc)
    (none, none)

/-- `get_custom_fields` (source lines 47-66): list the project's field
settings and match them; a transport error (or unknown project) is caught
and yields `(none, none)`. -/
def get_custom_fields (w : World) (pid : String) : (Option String × Option String) × World :=
  let c := gwCall w
  if c.1 then ((none, none), c.2)
  else
    match findProject c.2 pid with
    | none => ((none, none), c.2)
    | some p => (get_custom_fields_pure p.field_settings, c.2)

/-- `find_status_task` (source lines 68-78): list the project's tasks and
return the gid of the first task named exactly `STATUS_TASK_NAME`; none
found gives `none`, and a transport error is caught and ALSO gives `none`. -/
def find_status_task (w : World) (pid : String) : Option String × World :=
  let c := gwCall w
  if c.1 then (none, c.2)
  else
    (((tasksInProject c.2 pid).find? (fun t => t.name = STATUS_TASK_NAME)).map TaskRec.gid,
     c.2)

/-- The fixed note a freshly created status task carries (source line 93). -/
def CREATED_STATUS_NOTE : String :=
  "This task contains summary information about the project budget."

/-- The task record `client.tasks.create_in_workspace` produces (source
lines 89-94): the sentinel name, the fixed note, attached to the one
project; created gids are `task-<counter>`. -/
def newStatusTask (w : World) (pid : String) : TaskRec :=
  { gid := "task-" ++ toString w.nextGid, name := STATUS_TASK_NAME,
    notes := CREATED_STATUS_NOTE, projects := [pid], custom_fields := [] }

/-- `create_status_task` (source lines 80-99): resolve the project's
workspace, then create a task with the sentinel name attached to the
project; failures are caught and yield `none`. -/
def create_status_task (w : World) (pid : String) : Option String × World :=
  let r := get_project_workspace w pid
  match r.1 with
  | none => (none, r.2)
  | some _ =>
    let c := gwCall r.2
    if c.1 then (none, c.2)
    else
      (some (newStatusTask c.2 pid).gid,
       { c.2 with tasks := c.2.tasks ++ [newStatusTask c.2 pid], nextGid := c.2.nextGid + 1 })

/-- The detail-fetching task loop of `update_project_metrics` (source lines
129-167): skip the status task; for every other task fetch its full detail
(one gateway call each — in this model the detail is the record itself) and
fold it into the metrics; a transport error raises, which the enclosing
handler turns into a failed update (`none` here). -/
def processTasksW (estGid actGid statusGid : String) :
    List TaskRec → Metrics → World → Option Metrics × World
  | [], m, w => (some m, w)
  | t :: ts, m, w =>
    if t.gid = statusGid then processTasksW estGid actGid statusGid ts m w
    else
      let c := gwCall w
      if c.1 then (none, c.2)
      else processTasksW estGid actGid statusGid ts (processTask estGid actGid m t) c.2

/-- `update_project_metrics` (source lines 101-214): resolve the two field
gids (abort with `false` if either is missing); list the project's tasks;
find or create the status task (abort with `false` if neither works);
aggregate every listed task except the status task; fetch the project name;
render the summary with the current time; write it onto the status task's
notes.  Any transport error inside is caught by the outermost handler and
yields `false`, with nothing written. -/
def update_project_metrics (current_time : String) (w : World) (pid : String) :
    Bool × World :=
  let rcf := get_custom_fields w pid
  match rcf.1.1, rcf.1.2 with
  | some estGid, some actGid =>
    let c := gwCall rcf.2
    if c.1 then (false, c.2)
    else
      let tasks := tasksInProject c.2 pid
      let rf := find_status_task c.2 pid
      let rs := match rf.1 with
        | some s => (some s, rf.2)
        | none => create_status_task rf.2 pid
      match rs.1 with
      | none => (false, rs.2)
      | some statusGid =>
        let rp := processTasksW estGid actGid statusGid tasks initMetrics rs.2
        match rp.1 with
        | none => (false, rp.2)
        | some m =>
          let c2 := gwCall rp.2
          if c2.1 then (false, c2.2)
          else
            match findProject c2.2 pid with
            | none => (false, c2.2)
            | some pinfo =>
              let project_name := pinfo.name.getD "Construction Project"
              let summary := renderSummary project_name m current_time
              let c3 := gwCall c2.2
              if c3.1 then (false, c3.2)
              else
                let wr := c3.2.tasks.map (fun t =>
                  if t.gid = statusGid then { t with notes := summary } else t)
                (true, { c3.2 with tasks := wr })
  | _, _ => (false, rcf.2)

/-! ## Determining targets and the webhook boundary -/

/-- A changed-resource reference inside a webhook event
(`event['resource']`). -/
structure Resource where
  resource_type : String
  gid : Option String
deriving DecidableEq

/-- One webhook event; the resource reference is optional. -/
structure WebhookEvent where
  resource : Option Resource
deriving DecidableEq

/-- The parsed webhook body: its list of events (`event_data['events']`). -/
structure EventData where
  events : List WebhookEvent
deriving DecidableEq

/-- The inner loop of `determine_projects_to_update` (source lines 230-236):
walk a task's parent project gids; a gid not yet collected is verified
(`get_custom_fields`) and appended only when both field gids resolved. -/
def collectTaskProjects : World → List String → List String → List String × World
  | w, acc, [] => (acc, w)
  | w, acc, pj :: rest =>
    if pj ∈ acc then collectTaskProjects w acc rest
    else
      let r := get_custom_fields w pj
      if r.1.1.isSome ∧ r.1.2.isSome then collectTaskProjects r.2 (acc ++ [pj]) rest
      else collectTaskProjects r.2 acc rest

/-- The event loop of `determine_projects_to_update` (source lines 222-238):
for every event whose resource is a task with a gid, fetch the task (a
transport error or unknown task is caught and that event is skipped) and
collect its eligible parent projects. -/
def collectEventProjects : World → List String → List WebhookEvent → List String × World
  | w, acc, [] => (acc, w)
  | w, acc, ev :: rest =>
    match ev.resource with
    | some r =>
      if r.resource_type = "task" then
        match r.gid with
        | some tg =>
          let c := gwCall w
          if c.1 then collectEventProjects c.2 acc rest
          else
            match findTask c.2 tg with
            | none => collectEventProjects c.2 acc rest
            | some task =>
              let r' := collectTaskProjects c.2 acc task.projects
              collectEventProjects r'.2 r'.1 rest
        | none => collectEventProjects w acc rest
      else collectEventProjects w acc rest
    | none => collectEventProjects w acc rest

/-- The fallback loop of `determine_projects_to_update` (source lines
249-253): keep each workspace project whose two field gids resolve. -/
def collectWorkspaceProjects : World → List String → List ProjectInfo → List String × World
  | w, acc, [] => (acc, w)
  | w, acc, p :: rest =>
    let r := get_custom_fields w p.gid
    if r.1.1.isSome ∧ r.1.2.isSome then collectWorkspaceProjects r.2 (acc ++ [p.gid]) rest
    else collectWorkspaceProjects r.2 acc rest

/-- `determine_projects_to_update` (source lines 216-255): collect eligible
projects from the event, if one was supplied; when that leaves the list
empty (no event, or zero eligible projects), fall back to enumerating the
template project's workspace and keeping the eligible projects there. -/
def determine_projects_to_update (w : World) (event_data : Option EventData) :
    List String × World :=
  let re := match event_data with
    | some ed => collectEventProjects w [] ed.events
    | none => ([], w)
  if re.1 ≠ [] then re
  else
    let rw := get_project_workspace re.2 TEMPLATE_PROJECT_ID
    match rw.1 with
    | none => ([], rw.2)
    | some ws =>
      let ra := get_all_projects_in_workspace rw.2 ws
      collectWorkspaceProjects ra.2 [] ra.1

/-- The per-project update loop of `handle_webhook` (source lines 280-284):
update every target in order, recording each project's boolean outcome. -/
def runUpdates (current_time : String) :
    World → List (String × Bool) → List String → List (String × Bool) × World
  | w, acc, [] => (acc, w)
  | w, acc, pid :: rest =>
    let r := update_project_metrics current_time w pid
    runUpdates current_time r.2 (acc ++ [(pid, r.1)]) rest

/-- An inbound webhook request: the optional `X-Hook-Secret` header and the
parsed JSON body. -/
structure WebRequest where
  hookSecretHeader : Option String
  body : Option EventData
deriving DecidableEq

/-- Process-wide state: the stored webhook secret (`WEBHOOK_SECRET`, source
line 27) plus the remote world. -/
structure AppState where
  webhook_secret : Option String
  world : World
deriving DecidableEq

/-- The response of `handle_webhook`: status code, optional echoed
`X-Hook-Secret` header, and the `updated_projects` map when the event branch
ran. -/
structure WebResponse where
  status : ℕ
  hookSecretHeader : Option String
  updated_projects : Option (List (String × Bool))
deriving DecidableEq

/-- `handle_webhook` (source lines 257-292): a request carrying the
`X-Hook-Secret` header stores the secret and immediately returns 200 echoing
the identical value, with no event processing; otherwise the event branch
determines targets, updates each, and returns the result map. -/
def handle_webhook (current_time : String) (req : WebRequest) (st : AppState) :
    WebResponse × AppState :=
  match req.hookSecretHeader with
  | some secret =>
    ({ status := 200, hookSecretHeader := some secret, updated_projects := none },
     { st with webhook_secret := some secret })
  | none =>
    let rt := determine_projects_to_update st.world req.body
    let ru := runUpdates current_time rt.2 [] rt.1
    ({ status := 200, hookSecretHeader := none, updated_projects := some ru.1 },
     { st with world := ru.2 })

/-- The number of tasks attached to a project that carry the sentinel status
name. -/
def sentinelCount (w : World) (pid : String) : ℕ :=
  ((tasksInProject w pid).filter (fun t => t.name = STATUS_TASK_NAME)).length

/-- Run `update_project_metrics` for one project `n` times in sequence. -/
def runPasses (current_time : String) (pid : String) : ℕ → World → World
  | 0, w => w
  | n + 1, w => runPasses current_time pid n (update_project_metrics current_time w pid).2

/-! ## Lemmas about cost extraction and aggregation -/

lemma extractStep_fst_of_not_est (estGid actGid : String) (p : ℚ × ℚ) (f : CustomFieldValue)
    (h : f.gid = estGid → f.number_value = none) :
    (extractStep estGid actGid p f).1 = p.1 := by
  unfold extractStep
  split
  · rename_i hc
    rw [h hc.1] at hc
    simp at hc
  · split <;> rfl

lemma extractStep_snd_of_not_act (estGid actGid : String) (p : ℚ × ℚ) (f : CustomFieldValue)
    (h : f.gid = actGid → f.number_value = none) :
    (extractStep estGid actGid p f).2 = p.2 := by
  unfold extractStep
  split
  · rfl
  · split
    · rename_i hc
      rw [h hc.1] at hc
      simp at hc
    · rfl

lemma foldl_extractStep_fst (estGid actGid : String) :
    ∀ (fields : List CustomFieldValue) (p : ℚ × ℚ),
      (∀ f ∈ fields, f.gid = estGid → f.number_value = none) →
      (fields.foldl (extractStep estGid actGid) p).1 = p.1
  | [], _, _ => rfl
  | f :: fs, p, h => by
    rw [List.foldl_cons,
      foldl_extractStep_fst estGid actGid fs _
        (fun g hg => h g (List.mem_cons_of_mem _ hg)),
      extractStep_fst_of_not_est estGid actGid p f (h f (List.mem_cons_self _ _))]

lemma foldl_extractStep_snd (estGid actGid : String) :
    ∀ (fields : List CustomFieldValue) (p : ℚ × ℚ),
      (∀ f ∈ fields, f.gid = actGid → f.number_value = none) →
      (fields.foldl (extractStep estGid actGid) p).2 = p.2
  | [], _, _ => rfl
  | f :: fs, p, h => by
    rw [List.foldl_cons,
      foldl_extractStep_snd estGid actGid fs _
        (fun g hg => h g (List.mem_cons_of_mem _ hg)),
      extractStep_snd_of_not_act estGid actGid p f (h f (List.mem_cons_self _ _))]

lemma extractCosts_fst_absent (estGid actGid : String) (fields : List CustomFieldValue)
    (h : ∀ f ∈ fields, f.gid = estGid → f.number_value = none) :
    (extractCosts estGid actGid fields).1 = 0 :=
  foldl_extractStep_fst estGid actGid fields (0, 0) h

lemma extractCosts_snd_absent (estGid actGid : String) (fields : List CustomFieldValue)
    (h : ∀ f ∈ fields, f.gid = actGid → f.number_value = none) :
    (extractCosts estGid actGid fields).2 = 0 :=
  foldl_extractStep_snd estGid actGid fields (0, 0) h

lemma extractStep_nonneg (estGid actGid : String) (p : ℚ × ℚ) (f : CustomFieldValue)
    (hf : ∀ v, f.number_value = some v → 0 ≤ v) (h1 : 0 ≤ p.1) (h2 : 0 ≤ p.2) :
    0 ≤ (extractStep estGid actGid p f).1 ∧ 0 ≤ (extractStep estGid actGid p f).2 := by
  unfold extractStep
  split
  · rename_i hc
    obtain ⟨v, hv⟩ := Option.isSome_iff_exists.mp hc.2
    exact ⟨by simpa [hv] using hf v hv, h2⟩
  · split
    · rename_i hc
      obtain ⟨v, hv⟩ := Option.isSome_iff_exists.mp hc.2
      exact ⟨h1, by simpa [hv] using hf v hv⟩
    · exact ⟨h1, h2⟩

lemma foldl_extractStep_nonneg (estGid actGid : String) :
    ∀ (fields : List CustomFieldValue) (p : ℚ × ℚ),
      (∀ f ∈ fields, ∀ v, f.number_value = some v → 0 ≤ v) →
      0 ≤ p.1 → 0 ≤ p.2 →
      0 ≤ (fields.foldl (extractStep estGid actGid) p).1 ∧
        0 ≤ (fields.foldl (extractStep estGid actGid) p).2
  | [], _, _, h1, h2 => ⟨h1, h2⟩
  | f :: fs, p, h, h1, h2 => by
    have hs := extractStep_nonneg estGid actGid p f (h f (List.mem_cons_self _ _)) h1 h2
    rw [List.foldl_cons]
    exact foldl_extractStep_nonneg estGid actGid fs _
      (fun g hg => h g (List.mem_cons_of_mem _ hg)) hs.1 hs.2

lemma extractCosts_nonneg (estGid actGid : String) (fields : List CustomFieldValue)
    (h : ∀ f ∈ fields, ∀ v, f.number_value = some v → 0 ≤ v) :
    0 ≤ (extractCosts estGid actGid fields).1 ∧ 0 ≤ (extractCosts estGid actGid fields).2 :=
  foldl_extractStep_nonneg estGid actGid fields (0, 0) h le_rfl le_rfl

lemma aggregate_append_singleton (estGid actGid statusGid : String) (prev : List TaskRec)
    (t : TaskRec) (h : t.gid ≠ statusGid) :
    aggregate estGid actGid statusGid (prev ++ [t])
      = processTask estGid actGid (aggregate estGid actGid statusGid prev) t := by
  unfold aggregate
  rw [List.foldl_append]
  simp [aggStep, h]

lemma foldl_aggStep_total_estimated_nonneg (estGid actGid statusGid : String) :
    ∀ (ts : List TaskRec) (m : Metrics),
      (∀ t ∈ ts, ∀ f ∈ t.custom_fields, ∀ v, f.number_value = some v → 0 ≤ v) →
      0 ≤ m.total_estimated →
      0 ≤ (ts.foldl (aggStep estGid actGid statusGid) m).total_estimated
  | [], _, _, hm => hm
  | t :: ts, m, h, hm => by
    rw [List.foldl_cons]
    refine foldl_aggStep_total_estimated_nonneg estGid actGid statusGid ts _
      (fun g hg => h g (List.mem_cons_of_mem _ hg)) ?_
    unfold aggStep
    split
    · exact hm
    · have hc := (extractCosts_nonneg estGid actGid t.custom_fields
        (h t (List.mem_cons_self _ _))).1
      simpa [processTask] using add_nonneg hm hc

lemma aggregate_total_estimated_nonneg (estGid actGid statusGid : String)
    (ts : List TaskRec)
    (h : ∀ t ∈ ts, ∀ f ∈ t.custom_fields, ∀ v, f.number_value = some v → 0 ≤ v) :
    0 ≤ (aggregate estGid actGid statusGid ts).total_estimated :=
  foldl_aggStep_total_estimated_nonneg estGid actGid statusGid ts initMetrics h le_rfl

/-- The per-task over-budget decision, factored out of `processTask`: a task
contributes an entry exactly when its actual cost is positive and exceeds
its estimated cost, carrying the difference. -/
def overbudgetEntryOf (estGid actGid : String) (t : TaskRec) : Option OverBudgetItem :=
  let ec := (extractCosts estGid actGid t.custom_fields).1
  let ac := (extractCosts estGid actGid t.custom_fields).2
  if 0 < ac ∧ ec < ac then some ⟨t.name, ec, ac, ac - ec⟩ else none

lemma processTask_overbudget (estGid actGid : String) (m : Metrics) (t : TaskRec) :
    (processTask estGid actGid m t).overbudget_tasks
      = m.overbudget_tasks ++ (overbudgetEntryOf estGid actGid t).toList := by
  simp only [processTask, overbudgetEntryOf]
  split <;> simp

lemma foldl_aggStep_overbudget (estGid actGid statusGid : String) :
    ∀ (ts : List TaskRec) (m : Metrics),
      (ts.foldl (aggStep estGid actGid statusGid) m).overbudget_tasks
        = m.overbudget_tasks ++
            (ts.filter (fun t => t.gid ≠ statusGid)).filterMap (overbudgetEntryOf estGid actGid)
  | [], m => by simp
  | t :: ts, m => by
    rw [List.foldl_cons,
      foldl_aggStep_overbudget estGid actGid statusGid ts (aggStep estGid actGid statusGid m t)]
    by_cases h : t.gid = statusGid
    · rw [List.filter_cons_of_neg (by simp [h])]
      simp [aggStep, h]
    · rw [List.filter_cons_of_pos (by simp [h]), List.filterMap_cons]
      simp only [aggStep, if_neg h, processTask_overbudget]
      cases overbudgetEntryOf estGid actGid t <;> simp

lemma foldl_aggStep_filter (estGid actGid statusGid : String) :
    ∀ (ts : List TaskRec) (m : Metrics),
      ts.foldl (aggStep estGid actGid statusGid) m
        = (ts.filter (fun t => t.gid ≠ statusGid)).foldl (aggStep estGid actGid statusGid) m
  | [], _ => rfl
  | t :: ts, m => by
    by_cases h : t.gid = statusGid
    · have hs : aggStep estGid actGid statusGid m t = m := by simp [aggStep, h]
      rw [List.foldl_cons, hs, List.filter_cons_of_neg (by simp [h])]
      exact foldl_aggStep_filter estGid actGid statusGid ts m
    · rw [List.foldl_cons, List.filter_cons_of_pos (by simp [h]), List.foldl_cons]
      exact foldl_aggStep_filter estGid actGid statusGid ts _

/-! ## Sample data for concrete instances -/

/-- A sample task with estimated cost 100 and actual cost 150. -/
def sampleOverTask : TaskRec :=
  { gid := "t1", name := "T1", notes := "", projects := ["P"],
    custom_fields := [⟨"E", some 100⟩, ⟨"A", some 150⟩] }

/-- A sample task with estimated cost 100 and actual cost 0. -/
def sampleZeroActualTask : TaskRec :=
  { gid := "t0", name := "T0", notes := "", projects := ["P"],
    custom_fields := [⟨"E", some 100⟩, ⟨"A", some 0⟩] }

/-- A sample status task (sentinel name, no cost fields). -/
def sampleStatusTask : TaskRec :=
  { gid := "st", name := "Project Status", notes := "old-note",
    projects := ["P"], custom_fields := [] }

/-! ## Claims C1-C4 and C9: the pure aggregation core -/

/-- C1: in the aggregation of `update_project_metrics`, every task other
than the status task is folded in by the per-task step; there an absent
custom-field value is read as 0, the task's estimated cost is added to
`total_estimated` unconditionally, and `total_actual` is increased and
`completed_tasks` incremented exactly when the actual cost is strictly
positive. -/
theorem C1_cost_accumulation_policy (estGid actGid statusGid : String)
    (prev : List TaskRec) (t : TaskRec) (m : Metrics) (hskip : t.gid ≠ statusGid) :
    aggregate estGid actGid statusGid (prev ++ [t])
        = processTask estGid actGid (aggregate estGid actGid statusGid prev) t
    ∧ (processTask estGid actGid m t).total_estimated
        = m.total_estimated + (extractCosts estGid actGid t.custom_fields).1
    ∧ (0 < (extractCosts estGid actGid t.custom_fields).2 →
        (processTask estGid actGid m t).total_actual
            = m.total_actual + (extractCosts estGid actGid t.custom_fields).2
        ∧ (processTask estGid actGid m t).completed_tasks = m.completed_tasks + 1)
    ∧ (¬ 0 < (extractCosts estGid actGid t.custom_fields).2 →
        (processTask estGid actGid m t).total_actual = m.total_actual
        ∧ (processTask estGid actGid m t).completed_tasks = m.completed_tasks)
    ∧ ((∀ f ∈ t.custom_fields, f.gid = estGid → f.number_value = none) →
        (extractCosts estGid actGid t.custom_fields).1 = 0)
    ∧ ((∀ f ∈ t.custom_fields, f.gid = actGid → f.number_value = none) →
        (extractCosts estGid actGid t.custom_fields).2 = 0) := by
  refine ⟨aggregate_append_singleton estGid actGid statusGid prev t hskip, ?_, ?_, ?_,
    extractCosts_fst_absent estGid actGid t.custom_fields,
    extractCosts_snd_absent estGid actGid t.custom_fields⟩
  · simp [processTask]
  · intro h
    constructor <;> simp [processTask, h]
  · intro h
    constructor <;> simp [processTask, h]

/-- Witness for C1 at a concrete non-status task. -/
theorem C1_cost_accumulation_policy_witness :
    sampleOverTask.gid ≠ "status"
    ∧ aggregate "E" "A" "status" ([] ++ [sampleOverTask])
        = processTask "E" "A" (aggregate "E" "A" "status" []) sampleOverTask :=
  ⟨by decide,
   (C1_cost_accumulation_policy "E" "A" "status" [] sampleOverTask initMetrics (by decide)).1⟩

/-- C2: a task contributes an over-budget entry exactly when its actual
cost is strictly positive and strictly exceeds its estimated cost, with
difference actual minus estimated, in task-enumeration order; concretely,
estimated 100 / actual 150 yields the single entry with difference 50, and
actual 0 yields no entry despite estimated 100. -/
theorem C2_overbudget_iff :
    (∀ (estGid actGid statusGid : String) (ts : List TaskRec),
      (aggregate estGid actGid statusGid ts).overbudget_tasks
        = (ts.filter (fun t => t.gid ≠ statusGid)).filterMap (overbudgetEntryOf estGid actGid))
    ∧ (aggregate "E" "A" "status" [sampleOverTask]).overbudget_tasks
        = [⟨"T1", 100, 150, 50⟩]
    ∧ (aggregate "E" "A" "status" [sampleZeroActualTask]).overbudget_tasks = [] := by
  refine ⟨fun estGid actGid statusGid ts => ?_, ?_, ?_⟩
  · simpa [initMetrics] using foldl_aggStep_overbudget estGid actGid statusGid ts initMetrics
  · with_unfolding_all rfl
  · with_unfolding_all rfl

/-- C3: the derived rates are total: `percent_complete` is the completion
ratio times 100 except that it is 0 when `total_tasks = 0`, and
`budget_progress` is the utilization ratio times 100 except that it is 0
when `total_estimated = 0` (given the spec's non-negative cost amounts);
both are total rational-valued functions, so no division error or NaN can
arise. -/
theorem C3_rate_zero_guards (estGid actGid statusGid : String) (ts : List TaskRec)
    (hnn : ∀ t ∈ ts, ∀ f ∈ t.custom_fields, ∀ v, f.number_value = some v → 0 ≤ v) :
    ((aggregate estGid actGid statusGid ts).total_tasks = 0 →
      percent_complete (aggregate estGid actGid statusGid ts) = 0)
    ∧ ((aggregate estGid actGid statusGid ts).total_tasks ≠ 0 →
      percent_complete (aggregate estGid actGid statusGid ts)
        = ((aggregate estGid actGid statusGid ts).completed_tasks : ℚ)
            / ((aggregate estGid actGid statusGid ts).total_tasks : ℚ) * 100)
    ∧ ((aggregate estGid actGid statusGid ts).total_estimated = 0 →
      budget_progress (aggregate estGid actGid statusGid ts) = 0)
    ∧ ((aggregate estGid actGid statusGid ts).total_estimated ≠ 0 →
      budget_progress (aggregate estGid actGid statusGid ts)
        = (aggregate estGid actGid statusGid ts).total_actual
            / (aggregate estGid actGid statusGid ts).total_estimated * 100) := by
  refine ⟨fun h => ?_, fun h => ?_, fun h => ?_, fun h => ?_⟩
  · simp [percent_complete, h]
  · rw [percent_complete, if_pos (Nat.pos_of_ne_zero h)]
  · simp [budget_progress, h]
  · have hpos : 0 < (aggregate estGid actGid statusGid ts).total_estimated :=
      lt_of_le_of_ne (aggregate_total_estimated_nonneg estGid actGid statusGid ts hnn)
        (Ne.symm h)
    rw [budget_progress, if_pos hpos]

/-- Witness for C3 at the empty task list (no tasks, so the completion rate
is guarded to 0). -/
theorem C3_rate_zero_guards_witness :
    (∀ t ∈ ([] : List TaskRec), ∀ f ∈ t.custom_fields, ∀ v, f.number_value = some v → 0 ≤ v)
    ∧ percent_complete (aggregate "E" "A" "status" []) = 0 := by
  have hnn : ∀ t ∈ ([] : List TaskRec), ∀ f ∈ t.custom_fields, ∀ v,
      f.number_value = some v → 0 ≤ v := by simp
  exact ⟨hnn, (C3_rate_zero_guards "E" "A" "status" [] hnn).1 rfl⟩

/-- C4: the task whose gid equals the status-task gid is excluded from the
aggregation (aggregating a list is the same as aggregating it with every
status-gid task filtered out), and a project whose only task is the status
task aggregates to `total_tasks = 0` and `percent_complete = 0`. -/
theorem C4_status_task_excluded (estGid actGid statusGid : String) (ts : List TaskRec)
    (t : TaskRec) (hst : t.gid = statusGid) :
    aggregate estGid actGid statusGid ts
      = aggregate estGid actGid statusGid (ts.filter (fun u => u.gid ≠ statusGid))
    ∧ (aggregate estGid actGid statusGid [t]).total_tasks = 0
    ∧ percent_complete (aggregate estGid actGid statusGid [t]) = 0 := by
  refine ⟨foldl_aggStep_filter estGid actGid statusGid ts initMetrics, ?_, ?_⟩
  · simp [aggregate, aggStep, hst, initMetrics]
  · simp [aggregate, aggStep, hst, percent_complete, initMetrics]

/-- Witness for C4 at a concrete project whose only task is the status
task. -/
theorem C4_status_task_excluded_witness :
    sampleStatusTask.gid = "st"
    ∧ (aggregate "E" "A" "st" [sampleStatusTask]).total_tasks = 0
    ∧ percent_complete (aggregate "E" "A" "st" [sampleStatusTask]) = 0 :=
  ⟨rfl, (C4_status_task_excluded "E" "A" "st" [] sampleStatusTask rfl).2.1,
    (C4_status_task_excluded "E" "A" "st" [] sampleStatusTask rfl).2.2⟩

/-- C9: rendering the aggregated summary is a pure function of the project
name, the aggregated metrics and the current time, and two renderings over
identical task data differ only in the trailing last-updated timestamp
line: both equal a common prefix followed by the timestamp suffix. -/
theorem C9_render_identical_modulo_timestamp
    (estGid actGid statusGid project_name : String) (ts : List TaskRec)
    (time1 time2 : String) :
    ∃ p : String,
      renderSummary project_name (aggregate estGid actGid statusGid ts) time1
          = p ++ timestampSuffix time1
      ∧ renderSummary project_name (aggregate estGid actGid statusGid ts) time2
          = p ++ timestampSuffix time2 :=
  ⟨renderBody project_name (aggregate estGid actGid statusGid ts), rfl, rfl⟩

/-! ## Claims C8 and C10 -/

/-- An empty remote world. -/
def sampleWorldEmpty : World :=
  { projects := [], tasks := [], failSchedule := [], nextGid := 0 }

/-- A handshake request carrying the secret "abc123". -/
def sampleHandshakeReq : WebRequest :=
  { hookSecretHeader := some "abc123", body := none }

/-- Initial process state with no stored secret. -/
def sampleAppState : AppState :=
  { webhook_secret := none, world := sampleWorldEmpty }

/-- C8: a POST /webhook request whose `X-Hook-Secret` header holds `s`
makes the handler store `s` as the process-wide secret and return status
200 with the response's `X-Hook-Secret` header equal to `s` exactly,
touching the remote world in no way and performing no event processing. -/
theorem C8_handshake_echo (current_time : String) (req : WebRequest) (st : AppState)
    (s : String) (h : req.hookSecretHeader = some s) :
    (handle_webhook current_time req st).2.webhook_secret = some s
    ∧ (handle_webhook current_time req st).1.status = 200
    ∧ (handle_webhook current_time req st).1.hookSecretHeader = some s
    ∧ (handle_webhook current_time req st).2.world = st.world
    ∧ (handle_webhook current_time req st).1.updated_projects = none := by
  simp [handle_webhook, h]

/-- Witness for C8 at the concrete secret "abc123". -/
theorem C8_handshake_echo_witness :
    sampleHandshakeReq.hookSecretHeader = some "abc123"
    ∧ (handle_webhook "T" sampleHandshakeReq sampleAppState).1.status = 200
    ∧ (handle_webhook "T" sampleHandshakeReq sampleAppState).1.hookSecretHeader
        = some "abc123" :=
  ⟨rfl, (C8_handshake_echo "T" sampleHandshakeReq sampleAppState "abc123" rfl).2.1,
    (C8_handshake_echo "T" sampleHandshakeReq sampleAppState "abc123" rfl).2.2.1⟩

/-- A project with both cost fields configured. -/
def sampleProject : ProjectInfo :=
  { gid := "P", workspace_gid := "W", name := some "Proj",
    field_settings := [⟨"Budget", "E"⟩, ⟨"Actual Cost", "A"⟩] }

/-- World for the duplicate-creation scenario (C10): the sentinel status
task already exists, and the third gateway call of the pass — the task
listing inside `find_status_task` — fails transiently; every other call
succeeds. -/
def duplicateScenarioWorld : World :=
  { projects := [sampleProject], tasks := [sampleStatusTask],
    failSchedule := [false, false, true], nextGid := 0 }

/-- A world in which the one task listing fails. -/
def failingListWorld : World :=
  { projects := [sampleProject], tasks := [sampleStatusTask],
    failSchedule := [true], nextGid := 0 }

/-- A world genuinely holding no sentinel task. -/
def noSentinelWorld : World :=
  { projects := [sampleProject], tasks := [], failSchedule := [], nextGid := 0 }

/-- C10: a transport error while listing tasks in `find_status_task` is
caught and returns `none`, indistinguishable from genuinely finding no
sentinel task, so `update_project_metrics` proceeds to create a new status
task: in the concrete execution where only the find step's listing fails
while the sentinel already exists, the pass ends with TWO tasks named
"Project Status" attached to the project. -/
theorem C10_transient_find_failure_duplicates_status_task :
    (find_status_task failingListWorld "P").1 = none
    ∧ (find_status_task noSentinelWorld "P").1 = none
    ∧ sentinelCount duplicateScenarioWorld "P" = 1
    ∧ sentinelCount (update_project_metrics "T" duplicateScenarioWorld "P").2 "P" = 2 := by
  refine ⟨?_, ?_, ?_, ?_⟩ <;> with_unfolding_all rfl

/-! ## Behaviour of the gateway functions under an all-success schedule -/

lemma gwCall_nil (w : World) (h : w.failSchedule = []) : gwCall w = (false, w) := by
  unfold gwCall
  rw [h]

/-- The pure result of a successful `get_custom_fields` call. -/
def gcfResult (w : World) (pid : String) : Option String × Option String :=
  match findProject w pid with
  | none => (none, none)
  | some p => get_custom_fields_pure p.field_settings

/-- Field-eligibility of a project: both configured field names resolve. -/
def eligibleB (w : World) (pid : String) : Bool :=
  (gcfResult w pid).1.isSome && (gcfResult w pid).2.isSome

lemma get_custom_fields_nil (w : World) (pid : String) (h : w.failSchedule = []) :
    get_custom_fields w pid = (gcfResult w pid, w) := by
  simp only [get_custom_fields]
  rw [gwCall_nil w h]
  cases hf : findProject w pid <;> simp [gcfResult, hf]

lemma find_status_task_nil (w : World) (pid : String) (h : w.failSchedule = []) :
    find_status_task w pid
      = (((tasksInProject w pid).find? (fun t => t.name = STATUS_TASK_NAME)).map TaskRec.gid,
         w) := by
  simp only [find_status_task]
  rw [gwCall_nil w h]
  simp

lemma get_project_workspace_nil (w : World) (pid : String) (h : w.failSchedule = []) :
    get_project_workspace w pid
      = ((findProject w pid).map ProjectInfo.workspace_gid, w) := by
  simp only [get_project_workspace]
  rw [gwCall_nil w h]
  cases hf : findProject w pid <;> simp [hf]

lemma get_all_projects_in_workspace_nil (w : World) (ws : String) (h : w.failSchedule = []) :
    get_all_projects_in_workspace w ws
      = (w.projects.filter (fun p => p.workspace_gid = ws), w) := by
  simp only [get_all_projects_in_workspace]
  rw [gwCall_nil w h]
  simp

lemma collectTaskProjects_nil_spec (w : World) (h : w.failSchedule = []) :
    ∀ (pjs acc : List String),
      (collectTaskProjects w acc pjs).2 = w
      ∧ ∀ pid ∈ (collectTaskProjects w acc pjs).1, pid ∈ acc ∨ eligibleB w pid = true
  | [], acc => ⟨rfl, fun _ hm => Or.inl hm⟩
  | pj :: rest, acc => by
    by_cases hmem : pj ∈ acc
    · simp only [collectTaskProjects, if_pos hmem]
      exact collectTaskProjects_nil_spec w h rest acc
    · simp only [collectTaskProjects, if_neg hmem]
      rw [get_custom_fields_nil w pj h]
      by_cases helig : (gcfResult w pj).1.isSome ∧ (gcfResult w pj).2.isSome
      · rw [if_pos (by simpa using helig)]
        refine ⟨(collectTaskProjects_nil_spec w h rest _).1, fun pid hm => ?_⟩
        rcases (collectTaskProjects_nil_spec w h rest _).2 pid hm with hin | he
        · rcases List.mem_append.mp hin with hin' | hin'
          · exact Or.inl hin'
          · rw [List.mem_singleton.mp hin']
            exact Or.inr (by simp [eligibleB, helig.1, helig.2])
        · exact Or.inr he
      · rw [if_neg (by simpa using helig)]
        exact collectTaskProjects_nil_spec w h rest acc

lemma collectEventProjects_nil_spec (w : World) (h : w.failSchedule = []) :
    ∀ (evs : List WebhookEvent) (acc : List String),
      (collectEventProjects w acc evs).2 = w
      ∧ ∀ pid ∈ (collectEventProjects w acc evs).1, pid ∈ acc ∨ eligibleB w pid = true
  | [], acc => ⟨rfl, fun _ hm => Or.inl hm⟩
  | ev :: rest, acc => by
    simp only [collectEventProjects]
    cases hr : ev.resource with
    | none => exact collectEventProjects_nil_spec w h rest acc
    | some r =>
      dsimp only
      by_cases hrt : r.resource_type = "task"
      · rw [if_pos hrt]
        cases hg : r.gid with
        | none => exact collectEventProjects_nil_spec w h rest acc
        | some tg =>
          dsimp only
          rw [gwCall_nil w h]
          dsimp only
          cases hft : findTask w tg with
          | none => exact collectEventProjects_nil_spec w h rest acc
          | some task =>
            dsimp only
            have hct := collectTaskProjects_nil_spec w h task.projects acc
            refine ⟨?_, ?_⟩
            · rw [hct.1]
              exact (collectEventProjects_nil_spec w h rest _).1
            · rw [hct.1]
              intro pid hm
              rcases (collectEventProjects_nil_spec w h rest _).2 pid hm with hin | he
              · exact hct.2 pid hin
              · exact Or.inr he
      · rw [if_neg hrt]
        exact collectEventProjects_nil_spec w h rest acc

lemma collectWorkspaceProjects_nil (w : World) (h : w.failSchedule = []) :
    ∀ (ps : List ProjectInfo) (acc : List String),
      collectWorkspaceProjects w acc ps
        = (acc ++ (ps.filter (fun p => eligibleB w p.gid)).map ProjectInfo.gid, w)
  | [], acc => by simp [collectWorkspaceProjects]
  | p :: rest, acc => by
    simp only [collectWorkspaceProjects]
    rw [get_custom_fields_nil w p.gid h]
    by_cases helig : (gcfResult w p.gid).1.isSome ∧ (gcfResult w p.gid).2.isSome
    · rw [if_pos (by simpa using helig),
        collectWorkspaceProjects_nil w h rest (acc ++ [p.gid]),
        List.filter_cons_of_pos (by simp [eligibleB, helig.1, helig.2])]
      simp
    · rw [if_neg (by simpa using helig),
        collectWorkspaceProjects_nil w h rest acc,
        List.filter_cons_of_neg (by simpa [eligibleB] using helig)]

lemma determine_none_nil (w : World) (hnil : w.failSchedule = []) :
    determine_projects_to_update w none
      = (match findProject w TEMPLATE_PROJECT_ID with
         | none => ([], w)
         | some tp =>
            (((w.projects.filter (fun p => p.workspace_gid = tp.workspace_gid)).filter
                (fun p => eligibleB w p.gid)).map ProjectInfo.gid, w)) := by
  simp only [determine_projects_to_update]
  rw [if_neg (by simp)]
  rw [get_project_workspace_nil w _ hnil]
  cases hf : findProject w TEMPLATE_PROJECT_ID with
  | none => simp
  | some tp =>
    dsimp only [Option.map_some']
    rw [get_all_projects_in_workspace_nil w _ hnil,
      collectWorkspaceProjects_nil w hnil _ []]
    simp

lemma determine_some_empty_nil (w : World) (hnil : w.failSchedule = []) (ed : EventData)
    (hempty : (collectEventProjects w [] ed.events).1 = []) :
    determine_projects_to_update w (some ed) = determine_projects_to_update w none := by
  simp only [determine_projects_to_update]
  rw [if_neg (by simp [hempty]), if_neg (by simp),
    (collectEventProjects_nil_spec w hnil ed.events []).1]

lemma determine_some_nonempty_nil (w : World) (ed : EventData)
    (hne : (collectEventProjects w [] ed.events).1 ≠ []) :
    determine_projects_to_update w (some ed) = collectEventProjects w [] ed.events := by
  simp only [determine_projects_to_update]
  rw [if_pos (by simpa using hne)]

/-! ## Claim C7 -/

/-- Eligible project P1 (both cost fields configured). -/
def projP1 : ProjectInfo :=
  { gid := "P1", workspace_gid := "W", name := some "P1",
    field_settings := [⟨"Budget", "E"⟩, ⟨"Actual Cost", "A"⟩] }

/-- Ineligible project P2 (the actual-cost field is missing). -/
def projP2 : ProjectInfo :=
  { gid := "P2", workspace_gid := "W", name := some "P2",
    field_settings := [⟨"Budget", "E"⟩] }

/-- A task belonging to both P1 and P2. -/
def sharedTask : TaskRec :=
  { gid := "tq", name := "TQ", notes := "", projects := ["P1", "P2"],
    custom_fields := [] }

/-- World holding P1 (eligible), P2 (ineligible) and their shared task. -/
def eventWorld : World :=
  { projects := [projP1, projP2], tasks := [sharedTask],
    failSchedule := [], nextGid := 0 }

/-- A webhook event referencing the shared task. -/
def sampleTaskEvent : EventData :=
  { events := [{ resource := some { resource_type := "task", gid := some "tq" } }] }

/-- C7: every project id returned by `determine_projects_to_update` is
field-eligible (on the event path and on the fallback path alike); with no
event — or an event yielding zero eligible projects — the result is exactly
the eligible projects of the reference project's workspace; and the event
referencing a task shared by P1 (eligible) and P2 (ineligible) resolves to
exactly ["P1"]. -/
theorem C7_targets_eligibility (w : World) (hnil : w.failSchedule = []) :
    (∀ (ev : Option EventData) (pid : String),
        pid ∈ (determine_projects_to_update w ev).1 → eligibleB w pid = true)
    ∧ (∀ tp, findProject w TEMPLATE_PROJECT_ID = some tp →
        (determine_projects_to_update w none).1
          = ((w.projects.filter (fun p => p.workspace_gid = tp.workspace_gid)).filter
              (fun p => eligibleB w p.gid)).map ProjectInfo.gid)
    ∧ (∀ ed : EventData, (collectEventProjects w [] ed.events).1 = [] →
        determine_projects_to_update w (some ed) = determine_projects_to_update w none)
    ∧ (determine_projects_to_update eventWorld (some sampleTaskEvent)).1 = ["P1"] := by
  have hfallback : ∀ pid, pid ∈ (determine_projects_to_update w none).1 →
      eligibleB w pid = true := by
    intro pid hm
    rw [determine_none_nil w hnil] at hm
    cases hf : findProject w TEMPLATE_PROJECT_ID with
    | none => rw [hf] at hm; simp at hm
    | some tp =>
      rw [hf] at hm
      dsimp only at hm
      obtain ⟨p, hp, hgid⟩ := List.mem_map.mp hm
      rw [← hgid]
      exact (List.mem_filter.mp hp).2
  refine ⟨?_, ?_, ?_, ?_⟩
  · intro ev pid hm
    cases ev with
    | none => exact hfallback pid hm
    | some ed =>
      by_cases hne : (collectEventProjects w [] ed.events).1 = []
      · rw [determine_some_empty_nil w hnil ed hne] at hm
        exact hfallback pid hm
      · rw [determine_some_nonempty_nil w ed hne] at hm
        rcases (collectEventProjects_nil_spec w hnil ed.events []).2 pid hm with hin | he
        · exact absurd hin (List.not_mem_nil pid)
        · exact he
  · intro tp htp
    rw [determine_none_nil w hnil, htp]
  · exact determine_some_empty_nil w hnil
  · with_unfolding_all rfl

/-- Witness for C7: in the concrete event world the returned project "P1"
is indeed eligible. -/
theorem C7_targets_eligibility_witness :
    "P1" ∈ (determine_projects_to_update eventWorld (some sampleTaskEvent)).1
    ∧ eligibleB eventWorld "P1" = true := by
  have hd : (determine_projects_to_update eventWorld (some sampleTaskEvent)).1 = ["P1"] := by
    with_unfolding_all rfl
  have hm : "P1" ∈ (determine_projects_to_update eventWorld (some sampleTaskEvent)).1 := by
    rw [hd]
    exact List.mem_singleton.mpr rfl
  exact ⟨hm, (C7_targets_eligibility eventWorld rfl).1 (some sampleTaskEvent) "P1" hm⟩

/-! ## Sentinel counting -/

lemma filter_map_length_of_pres {α : Type} (f : α → α) (p : α → Bool)
    (hp : ∀ a, p (f a) = p a) (l : List α) :
    ((l.map f).filter p).length = (l.filter p).length := by
  rw [List.filter_map, List.length_map]
  congr 1
  exact List.filter_congr (fun a _ => hp a)

lemma sentinelCount_eq (w : World) (pid : String) :
    sentinelCount w pid
      = (w.tasks.filter (fun t =>
          decide (t.name = STATUS_TASK_NAME) && decide (pid ∈ t.projects))).length := by
  unfold sentinelCount tasksInProject
  rw [List.filter_filter]

lemma sentinelCount_tasks_map_notes (w w' : World) (pid gid' s' : String)
    (h : w'.tasks = w.tasks.map (fun t => if t.gid = gid' then { t with notes := s' } else t)) :
    sentinelCount w' pid = sentinelCount w pid := by
  rw [sentinelCount_eq, sentinelCount_eq, h]
  exact filter_map_length_of_pres _ _
    (fun t => by by_cases hg : t.gid = gid' <;> simp [hg]) _

lemma sentinelCount_tasks_append (w w' : World) (pid : String) (t : TaskRec)
    (h : w'.tasks = w.tasks ++ [t]) (hmem : pid ∈ t.projects)
    (hname : t.name = STATUS_TASK_NAME) :
    sentinelCount w' pid = sentinelCount w pid + 1 := by
  rw [sentinelCount_eq, sentinelCount_eq, h, List.filter_append, List.length_append]
  simp [hmem, hname]

lemma firstSentinel_isSome_of_pos (w : World) (pid : String)
    (h : 0 < sentinelCount w pid) :
    ((tasksInProject w pid).find? (fun t => t.name = STATUS_TASK_NAME)).isSome := by
  obtain ⟨x, hx⟩ := List.exists_mem_of_length_pos h
  exact List.find?_isSome.mpr
    ⟨x, List.mem_of_mem_filter hx, (List.mem_filter.mp hx).2⟩

lemma firstSentinel_eq_none_of_zero (w : World) (pid : String)
    (h : sentinelCount w pid = 0) :
    (tasksInProject w pid).find? (fun t => t.name = STATUS_TASK_NAME) = none := by
  rw [List.find?_eq_none]
  intro x hx hpx
  have hmem : x ∈ (tasksInProject w pid).filter (fun t => t.name = STATUS_TASK_NAME) :=
    List.mem_filter.mpr ⟨hx, hpx⟩
  unfold sentinelCount at h
  rw [List.length_eq_zero] at h
  rw [h] at hmem
  exact absurd hmem (List.not_mem_nil x)

lemma processTasksW_nil (estGid actGid statusGid : String) :
    ∀ (ts : List TaskRec) (m : Metrics) (w : World), w.failSchedule = [] →
      processTasksW estGid actGid statusGid ts m w
        = (some (ts.foldl (aggStep estGid actGid statusGid) m), w)
  | [], _, _, _ => rfl
  | t :: ts, m, w, h => by
    simp only [processTasksW]
    by_cases hs : t.gid = statusGid
    · rw [if_pos hs, processTasksW_nil estGid actGid statusGid ts m w h, List.foldl_cons]
      simp [aggStep, hs]
    · rw [if_neg hs, gwCall_nil w h]
      dsimp only
      rw [processTasksW_nil estGid actGid statusGid ts _ w h, List.foldl_cons]
      simp [aggStep, hs]

lemma create_status_task_nil (w : World) (pid : String) (p : ProjectInfo)
    (hnil : w.failSchedule = []) (hp : findProject w pid = some p) :
    create_status_task w pid
      = (some (newStatusTask w pid).gid,
         { w with tasks := w.tasks ++ [newStatusTask w pid], nextGid := w.nextGid + 1 }) := by
  simp only [create_status_task]
  rw [get_project_workspace_nil w pid hnil, hp]
  dsimp only [Option.map_some']
  rw [gwCall_nil w hnil]
  simp

lemma update_nil_preserved (tm : String) (w : World) (pid : String)
    (hnil : w.failSchedule = []) (hpos : 0 < sentinelCount w pid) :
    sentinelCount (update_project_metrics tm w pid).2 pid = sentinelCount w pid
    ∧ (update_project_metrics tm w pid).2.failSchedule = [] := by
  obtain ⟨t0, ht0⟩ := Option.isSome_iff_exists.mp (firstSentinel_isSome_of_pos w pid hpos)
  simp only [update_project_metrics]
  rw [get_custom_fields_nil w pid hnil]
  dsimp only
  cases hge : (gcfResult w pid).1 with
  | none => exact ⟨rfl, hnil⟩
  | some eg =>
    cases hga : (gcfResult w pid).2 with
    | none => exact ⟨rfl, hnil⟩
    | some ag =>
      dsimp only
      rw [gwCall_nil w hnil]
      dsimp only
      rw [find_status_task_nil w pid hnil, ht0]
      dsimp only [Option.map_some']
      rw [processTasksW_nil eg ag t0.gid (tasksInProject w pid) initMetrics w hnil]
      dsimp only
      rw [gwCall_nil w hnil]
      dsimp only
      cases hfp : findProject w pid with
      | none => exact ⟨rfl, hnil⟩
      | some pinfo =>
        dsimp only
        rw [gwCall_nil w hnil]
        dsimp only
        exact ⟨sentinelCount_tasks_map_notes w _ pid t0.gid _ rfl, hnil⟩

lemma update_nil_creates (tm : String) (w : World) (pid : String) (p : ProjectInfo)
    (hnil : w.failSchedule = []) (hp : findProject w pid = some p)
    (heg : (get_custom_fields_pure p.field_settings).1.isSome)
    (hag : (get_custom_fields_pure p.field_settings).2.isSome)
    (h0 : sentinelCount w pid = 0) :
    sentinelCount (update_project_metrics tm w pid).2 pid = 1
    ∧ (update_project_metrics tm w pid).2.failSchedule = [] := by
  obtain ⟨eg, hegv⟩ := Option.isSome_iff_exists.mp heg
  obtain ⟨ag, hagv⟩ := Option.isSome_iff_exists.mp hag
  have hgc : gcfResult w pid = (some eg, some ag) := by
    unfold gcfResult
    rw [hp]
    exact Prod.ext hegv hagv
  simp only [update_project_metrics]
  rw [get_custom_fields_nil w pid hnil, hgc]
  dsimp only
  rw [gwCall_nil w hnil]
  dsimp only
  rw [find_status_task_nil w pid hnil, firstSentinel_eq_none_of_zero w pid h0]
  dsimp only [Option.map_none']
  rw [create_status_task_nil w pid p hnil hp]
  dsimp only
  rw [processTasksW_nil eg ag (newStatusTask w pid).gid (tasksInProject w pid) initMetrics
    _ (show World.failSchedule
        { w with tasks := w.tasks ++ [newStatusTask w pid], nextGid := w.nextGid + 1 }
        = [] from hnil)]
  dsimp only
  rw [gwCall_nil _ (show World.failSchedule
    { w with tasks := w.tasks ++ [newStatusTask w pid], nextGid := w.nextGid + 1 }
    = [] from hnil)]
  dsimp only
  rw [show findProject
      { w with tasks := w.tasks ++ [newStatusTask w pid], nextGid := w.nextGid + 1 } pid
      = some p from hp]
  dsimp only
  rw [gwCall_nil _ (show World.failSchedule
    { w with tasks := w.tasks ++ [newStatusTask w pid], nextGid := w.nextGid + 1 }
    = [] from hnil)]
  rw [if_neg Bool.false_ne_true, if_neg Bool.false_ne_true, if_neg Bool.false_ne_true]
  dsimp only
  refine ⟨Eq.trans (sentinelCount_tasks_map_notes
      { w with tasks := w.tasks ++ [newStatusTask w pid], nextGid := w.nextGid + 1 } _
      pid (newStatusTask w pid).gid _ rfl) ?_, hnil⟩
  refine Eq.trans (sentinelCount_tasks_append w
      { w with tasks := w.tasks ++ [newStatusTask w pid], nextGid := w.nextGid + 1 }
      pid (newStatusTask w pid) rfl ?_ rfl) ?_
  · simp [newStatusTask]
  · rw [h0]

lemma runPasses_nil_keeps_one (tm pid : String) :
    ∀ (n : ℕ) (w : World), w.failSchedule = [] → sentinelCount w pid = 1 →
      sentinelCount (runPasses tm pid n w) pid = 1
  | 0, _, _, h1 => h1
  | n + 1, w, hnil, h1 => by
    have hu := update_nil_preserved tm w pid hnil (by omega)
    simp only [runPasses]
    exact runPasses_nil_keeps_one tm pid n _ hu.2 (hu.1.trans h1)

/-! ## Claim C6 -/

/-- C6: starting from a project with no sentinel-named task, any positive
number of sequential failure-free passes leaves exactly one task named
"Project Status" attached to the project: the first pass creates it (the
find step returned none), and every later pass finds it and does not create
another; moreover the find step returns the FIRST task carrying the
sentinel name. -/
theorem C6_at_most_one_status_task (tm : String) (w : World) (pid : String)
    (p : ProjectInfo) (n : ℕ)
    (hnil : w.failSchedule = [])
    (hp : findProject w pid = some p)
    (heg : (get_custom_fields_pure p.field_settings).1.isSome)
    (hag : (get_custom_fields_pure p.field_settings).2.isSome)
    (h0 : sentinelCount w pid = 0) :
    sentinelCount (runPasses tm pid (n + 1) w) pid = 1
    ∧ (∀ w' : World, w'.failSchedule = [] →
        (find_status_task w' pid).1
          = ((tasksInProject w' pid).find? (fun t => t.name = STATUS_TASK_NAME)).map
              TaskRec.gid) := by
  refine ⟨?_, fun w' h' => by rw [find_status_task_nil w' pid h']⟩
  simp only [runPasses]
  have hu := update_nil_creates tm w pid p hnil hp heg hag h0
  exact runPasses_nil_keeps_one tm pid n _ hu.2 hu.1

/-- Witness for C6: two failure-free passes over a concrete empty project
leave exactly one status task. -/
theorem C6_at_most_one_status_task_witness :
    noSentinelWorld.failSchedule = []
    ∧ sentinelCount noSentinelWorld "P" = 0
    ∧ sentinelCount (runPasses "T" "P" 2 noSentinelWorld) "P" = 1 := by
  refine ⟨rfl, by with_unfolding_all rfl, ?_⟩
  exact (C6_at_most_one_status_task "T" noSentinelWorld "P" sampleProject 1 rfl
    (by with_unfolding_all rfl) (by with_unfolding_all rfl) (by with_unfolding_all rfl)
    (by with_unfolding_all rfl)).1

/-! ## Claim C5: failure isolation -/

lemma gwCall_tasks (w : World) : (gwCall w).2.tasks = w.tasks := by
  unfold gwCall
  cases h : w.failSchedule <;> rfl

lemma get_custom_fields_world (w : World) (pid : String) :
    (get_custom_fields w pid).2 = (gwCall w).2 := by
  simp only [get_custom_fields]
  split
  · rfl
  · split <;> rfl

lemma find_status_task_world (w : World) (pid : String) :
    (find_status_task w pid).2 = (gwCall w).2 := by
  simp only [find_status_task]
  split <;> rfl

lemma get_project_workspace_world (w : World) (pid : String) :
    (get_project_workspace w pid).2 = (gwCall w).2 := by
  simp only [get_project_workspace]
  split
  · rfl
  · split <;> rfl

lemma create_status_task_mem (w : World) (pid : String) (t : TaskRec)
    (ht : t ∈ w.tasks) : t ∈ (create_status_task w pid).2.tasks := by
  simp only [create_status_task]
  split
  · simpa only [get_project_workspace_world, gwCall_tasks] using ht
  · split
    · simpa only [gwCall_tasks, get_project_workspace_world] using ht
    · refine List.mem_append_left _ ?_
      simpa only [gwCall_tasks, get_project_workspace_world] using ht

lemma processTasksW_world_tasks (estGid actGid statusGid : String) :
    ∀ (ts : List TaskRec) (m : Metrics) (w : World),
      (processTasksW estGid actGid statusGid ts m w).2.tasks = w.tasks
  | [], _, _ => rfl
  | t :: ts, m, w => by
    simp only [processTasksW]
    split
    · exact processTasksW_world_tasks estGid actGid statusGid ts m w
    · split
      · exact gwCall_tasks w
      · rw [processTasksW_world_tasks estGid actGid statusGid ts _ _]
        exact gwCall_tasks w

lemma update_mem_of_false (tm : String) (w : World) (pid : String) (t : TaskRec)
    (ht : t ∈ w.tasks) :
    (update_project_metrics tm w pid).1 = false →
      t ∈ (update_project_metrics tm w pid).2.tasks := by
  have hbase : t ∈ (find_status_task (gwCall (get_custom_fields w pid).2).2 pid).2.tasks := by
    simpa only [find_status_task_world, gwCall_tasks, get_custom_fields_world] using ht
  simp only [update_project_metrics]
  split
  · split
    · intro _
      simpa only [gwCall_tasks, get_custom_fields_world] using ht
    · split
      · intro _
        split
        · exact hbase
        · exact create_status_task_mem _ pid t hbase
      · split
        · intro _
          simp only [processTasksW_world_tasks]
          split
          · exact hbase
          · exact create_status_task_mem _ pid t hbase
        · split
          · intro _
            simp only [gwCall_tasks, processTasksW_world_tasks]
            split
            · exact hbase
            · exact create_status_task_mem _ pid t hbase
          · split
            · intro _
              simp only [gwCall_tasks, processTasksW_world_tasks]
              split
              · exact hbase
              · exact create_status_task_mem _ pid t hbase
            · split
              · intro _
                simp only [gwCall_tasks, processTasksW_world_tasks]
                split
                · exact hbase
                · exact create_status_task_mem _ pid t hbase
              · intro hx
                exact absurd hx (by simp)
  · intro _
    simpa only [get_custom_fields_world, gwCall_tasks] using ht

lemma runUpdates_keys (tm : String) :
    ∀ (pids : List String) (w : World) (acc : List (String × Bool)),
      (runUpdates tm w acc pids).1.map Prod.fst = acc.map Prod.fst ++ pids
  | [], _, acc => by simp [runUpdates]
  | pid :: rest, w, acc => by
    simp only [runUpdates]
    rw [runUpdates_keys tm rest _ _]
    simp

/-- Status task of project p1 before the pass. -/
def statusTask1 : TaskRec :=
  { gid := "s1", name := "Project Status", notes := "old1", projects := ["p1"],
    custom_fields := [] }

/-- Status task of project p2 before the pass. -/
def statusTask2 : TaskRec :=
  { gid := "s2", name := "Project Status", notes := "old2", projects := ["p2"],
    custom_fields := [] }

/-- Status task of project p3 before the pass. -/
def statusTask3 : TaskRec :=
  { gid := "s3", name := "Project Status", notes := "old3", projects := ["p3"],
    custom_fields := [] }

/-- Project p1 with both cost fields. -/
def scenarioProj1 : ProjectInfo :=
  { gid := "p1", workspace_gid := "W", name := some "P1n",
    field_settings := [⟨"Budget", "E"⟩, ⟨"Actual Cost", "A"⟩] }

/-- Project p2 with both cost fields. -/
def scenarioProj2 : ProjectInfo :=
  { gid := "p2", workspace_gid := "W", name := some "P2n",
    field_settings := [⟨"Budget", "E"⟩, ⟨"Actual Cost", "A"⟩] }

/-- Project p3 with both cost fields. -/
def scenarioProj3 : ProjectInfo :=
  { gid := "p3", workspace_gid := "W", name := some "P3n",
    field_settings := [⟨"Budget", "E"⟩, ⟨"Actual Cost", "A"⟩] }

/-- Three-project pass in which the seventh gateway call — the task listing
inside p2's update — raises a transport error; every other call succeeds
(p1's update makes five calls, then p2's field lookup succeeds and its task
listing fails). -/
def passScenarioWorld : World :=
  { projects := [scenarioProj1, scenarioProj2, scenarioProj3],
    tasks := [statusTask1, statusTask2, statusTask3],
    failSchedule := [false, false, false, false, false, false, true],
    nextGid := 0 }

/-- A world whose very first gateway call fails, so the update of p2 fails
before anything is written. -/
def failFastWorld : World :=
  { projects := [], tasks := [statusTask2], failSchedule := [true], nextGid := 0 }

/-- C5: a failing project update is caught and recorded as `false` without
stopping the pass — the result map always carries one entry per target, in
order; a failed update never removes or rewrites any existing task (so the
status-task note is left unwritten); and in the concrete three-project pass
where p2's task listing raises, the result map is
p1 ↦ true, p2 ↦ false, p3 ↦ true, p2's note is still "old2", and p1's and
p3's notes hold the freshly rendered summaries. -/
theorem C5_partial_failure_isolation :
    (∀ (tm : String) (w : World) (pids : List String),
        (runUpdates tm w [] pids).1.map Prod.fst = pids)
    ∧ (∀ (tm : String) (w : World) (pid : String) (t : TaskRec), t ∈ w.tasks →
        (update_project_metrics tm w pid).1 = false →
        t ∈ (update_project_metrics tm w pid).2.tasks)
    ∧ (runUpdates "T" passScenarioWorld [] ["p1", "p2", "p3"]).1
        = [("p1", true), ("p2", false), ("p3", true)]
    ∧ (runUpdates "T" passScenarioWorld [] ["p1", "p2", "p3"]).2.tasks.map TaskRec.notes
        = [renderSummary "P1n" initMetrics "T", "old2",
           renderSummary "P3n" initMetrics "T"] := by
  refine ⟨fun tm w pids => by simpa using runUpdates_keys tm pids w [],
    fun tm w pid t ht hf => update_mem_of_false tm w pid t ht hf, ?_, ?_⟩
  · with_unfolding_all rfl
  · with_unfolding_all rfl

/-- Witness for C5: a concrete failing update leaves the pre-existing
status task, note included, untouched. -/
theorem C5_partial_failure_isolation_witness :
    statusTask2 ∈ failFastWorld.tasks
    ∧ (update_project_metrics "T" failFastWorld "p2").1 = false
    ∧ statusTask2 ∈ (update_project_metrics "T" failFastWorld "p2").2.tasks := by
  have h1 : statusTask2 ∈ failFastWorld.tasks := by simp [failFastWorld]
  have h2 : (update_project_metrics "T" failFastWorld "p2").1 = false := by
    with_unfolding_all rfl
  exact ⟨h1, h2,
    C5_partial_failure_isolation.2.1 "T" failFastWorld "p2" statusTask2 h1 h2⟩
